import Mathlib

/-!
Verification of the `whatisrunning` train-display server (src/server.js, src/db.js).

The embedding models the SQLite database as two Lean lists (`trains`,
`train_runs`), each prepared statement as a function on that state, and each
Express route handler as a function from the state and the request's inputs
(body, path id, the generated UUIDs and the current timestamp, which are
environment inputs) to the new state and a response.  Timestamps are integers
(milliseconds since the epoch): ISO-8601 strings compare lexicographically in
the same order as their numeric instants, so `ORDER BY start_time DESC` and
date extraction are faithfully represented on integers.
-/

namespace WhatIsRunning

/-- A JavaScript value as the validator sees a body field: a string, the
`undefined` value (key absent), or any non-string value. -/
inductive JVal where
  | str (s : String)
  | undef
  | other
deriving DecidableEq, Repr

/-- `VALID_LOCATIONS` from server.js (insertion order of the `Set`). -/
def VALID_LOCATIONS : List String := ["Upper loop", "Lower loop 1", "Lower loop 2"]

/-- `VALID_POWER` from server.js. -/
def VALID_POWER : List String := ["Steam", "Diesel", "Electric"]

/-- `VALID_POWER_TYPES` from server.js. -/
def VALID_POWER_TYPES : List String := ["AC", "DC", "Digital"]

/-- `VALID_TYPES` from server.js. -/
def VALID_TYPES : List String := ["Passenger", "Freight", "Special", "Mixed"]

/-- A request body after the route's normalization step
(`numberOfCars: Number(req.body.numberOfCars)`): `numberOfCars` is `some n`
when the coerced number is an integer `n`, `none` otherwise (NaN, fractional). -/
structure TrainBody where
  name : JVal
  railway : JVal
  country : JVal
  power : JVal
  trainType : JVal
  numberOfCars : Option Int
  powerType : JVal
  years : JVal
  notes : JVal
  owner : JVal
  location : JVal
deriving DecidableEq, Repr

/-- JS `!v || typeof v !== "string"` is false: `v` is a non-empty string. -/
def reqStr : JVal → Bool
  | .str s => s ≠ ""
  | _ => false

/-- JS `!v || !SET.has(v)` is false: `v` is a string belonging to the set
(the sets contain no empty string, so truthiness adds nothing). -/
def enumOk (valid : List String) : JVal → Bool
  | .str s => valid.contains s
  | _ => false

/-- JS `typeof v !== "string"` after destructuring with default `""`:
only a present non-string value fails. -/
def strTypeBad : JVal → Bool
  | .other => true
  | _ => false

/-- `Number.isInteger(n) && 0 <= n && n <= 100`. -/
def carsOk : Option Int → Bool
  | some n => 0 ≤ n && n ≤ 100
  | none => false

/-- `validateTrain` from server.js: returns the first error message, in the
source's check order, or `none` when the record is valid. -/
def validateTrain (b : TrainBody) : Option String :=
  if ¬ reqStr b.name then some "name required"
  else if ¬ reqStr b.railway then some "railway required"
  else if ¬ reqStr b.country then some "country required (emoji flag)"
  else if ¬ enumOk VALID_POWER b.power then
    some "power must be one of: Steam, Diesel, Electric"
  else if ¬ enumOk VALID_TYPES b.trainType then
    some "trainType must be one of: Passenger, Freight, Special, Mixed"
  else if ¬ carsOk b.numberOfCars then
    some "numberOfCars must be an integer between 0 and 100"
  else if ¬ enumOk VALID_POWER_TYPES b.powerType then
    some "powerType must be one of: AC, DC, Digital"
  else if ¬ reqStr b.years then some "years required (e.g. 1950 or 1950â€“1960)"
  else if ¬ enumOk VALID_LOCATIONS b.location then
    some "location must be one of: Upper loop, Lower loop 1, Lower loop 2"
  else if strTypeBad b.notes then some "notes must be a string"
  else if strTypeBad b.owner then some "owner must be a string"
  else none

/-- A row of the `trains` table (db.js). -/
structure Train where
  id : String
  name : String
  railway : String
  country : String
  power : String
  trainType : String
  numberOfCars : Int
  powerType : String
  years : String
  notes : String
  owner : String
  location : String
  active : Bool
  updated_at : Int
deriving DecidableEq, Repr

/-- A row of the `train_runs` table (db.js); `stop_time` is nullable. -/
structure Run where
  id : String
  train_id : String
  name : String
  railway : String
  country : String
  power : String
  trainType : String
  numberOfCars : Int
  powerType : String
  years : String
  notes : String
  owner : String
  location : String
  start_time : Int
  stop_time : Option Int
deriving DecidableEq, Repr

/-- The database state: the two tables, rows in insertion order. -/
structure DB where
  trains : List Train
  runs : List Run
deriving DecidableEq, Repr

/-- The column projection of `stmtListRunning`: every `trains` column except
`owner` and `active`. -/
structure PublicTrain where
  id : String
  name : String
  railway : String
  country : String
  power : String
  trainType : String
  numberOfCars : Int
  powerType : String
  years : String
  notes : String
  location : String
  updated_at : Int
deriving DecidableEq, Repr

/-- Project a `trains` row onto the `stmtListRunning` column list. -/
def publicOf (t : Train) : PublicTrain :=
  { id := t.id, name := t.name, railway := t.railway, country := t.country
    power := t.power, trainType := t.trainType, numberOfCars := t.numberOfCars
    powerType := t.powerType, years := t.years, notes := t.notes
    location := t.location, updated_at := t.updated_at }

/-- `ORDER BY location ASC, updated_at DESC` as a Boolean total preorder. -/
def rosterLE (a b : PublicTrain) : Bool :=
  if a.location = b.location then b.updated_at ≤ a.updated_at
  else a.location < b.location

/-- `stmtListRunning`: active rows, projected, ordered by location ascending
then `updated_at` descending. -/
def stmtListRunning (db : DB) : List PublicTrain :=
  ((db.trains.filter (·.active)).map publicOf).mergeSort rosterLE

/-- `stmtGetById`: point lookup on the primary key. -/
def stmtGetById (db : DB) (id : String) : Option Train :=
  db.trains.find? (fun t => t.id = id)

/-- `ORDER BY start_time DESC LIMIT 1` over a candidate list: a row of
maximal `start_time` (the first such row, ties broken arbitrarily by SQLite). -/
def pickLatest : List Run → Option Run
  | [] => none
  | r :: rs => some (rs.foldl (fun acc x => if acc.start_time < x.start_time then x else acc) r)

/-- `stmtFindOpenRun`: most recent run of the train with `stop_time IS NULL`. -/
def stmtFindOpenRun (db : DB) (tid : String) : Option Run :=
  pickLatest (db.runs.filter (fun r => r.train_id = tid && r.stop_time = none))

/-- `stmtFindLatestRun`: most recent run of the train, open or closed. -/
def stmtFindLatestRun (db : DB) (tid : String) : Option Run :=
  pickLatest (db.runs.filter (fun r => r.train_id = tid))

/-- `stmtUpdateRunStop`: `UPDATE train_runs SET stop_time=@stop_time WHERE id=@id`. -/
def stmtUpdateRunStop (db : DB) (id : String) (stop_time : Int) : DB :=
  { db with runs := db.runs.map (fun r =>
      if r.id = id then { r with stop_time := some stop_time } else r) }

/-- `stmtDeactivate`: `UPDATE trains SET active=0, updated_at=@updated_at WHERE id=@id`. -/
def stmtDeactivate (db : DB) (id : String) (updated_at : Int) : DB :=
  { db with trains := db.trains.map (fun t =>
      if t.id = id then { t with active := false, updated_at := updated_at } else t) }

/-- `stmtInsert`: append a `trains` row. -/
def stmtInsert (db : DB) (t : Train) : DB :=
  { db with trains := db.trains ++ [t] }

/-- `stmtInsertRun`: append a `train_runs` row. -/
def stmtInsertRun (db : DB) (r : Run) : DB :=
  { db with runs := db.runs ++ [r] }

/-- The columns `stmtUpdate` sets (everything except `id` and `active`),
plus the `WHERE id` key. -/
structure UpdateRow where
  id : String
  name : String
  railway : String
  country : String
  power : String
  trainType : String
  numberOfCars : Int
  powerType : String
  years : String
  notes : String
  owner : String
  location : String
  updated_at : Int
deriving DecidableEq, Repr

/-- `stmtUpdate`: overwrite the listed columns of the row with matching id;
`id` and `active` are not in the SET list and stay as they are. -/
def stmtUpdate (db : DB) (u : UpdateRow) : DB :=
  { db with trains := db.trains.map (fun t =>
      if t.id = u.id then
        { t with name := u.name, railway := u.railway, country := u.country
                 power := u.power, trainType := u.trainType
                 numberOfCars := u.numberOfCars, powerType := u.powerType
                 years := u.years, notes := u.notes, owner := u.owner
                 location := u.location, updated_at := u.updated_at }
      else t) }

/-- Extract the string of a `JVal` (JS reads the value after validation has
established it is a string; `undef` reaches a read only through `?? ""`). -/
def strOf : JVal → String
  | .str s => s
  | _ => ""

/-- Outcome of a route handler. `serverError` is an exception escaping the
handler (a prepared statement throwing); Express answers 500. -/
inductive Resp where
  | created (id : String)
  | badRequest (msg : String)
  | notFound
  | ok
  | serverError
deriving DecidableEq, Repr

/-- The `trains` row built by `POST /api/running` from a validated body:
fresh `id`, `active=1`, `updated_at` = now. -/
def trainOfBody (b : TrainBody) (newId : String) (now : Int) : Train :=
  { id := newId, name := strOf b.name, railway := strOf b.railway
    country := strOf b.country, power := strOf b.power
    trainType := strOf b.trainType, numberOfCars := b.numberOfCars.getD 0
    powerType := strOf b.powerType, years := strOf b.years
    notes := strOf b.notes, owner := strOf b.owner
    location := strOf b.location, active := true, updated_at := now }

/-- The `train_runs` row `POST /api/running` inserts: a fresh id, a snapshot
of the row just written, `start_time` = the train's `updated_at`, open. -/
def runOfTrain (t : Train) (newRunId : String) : Run :=
  { id := newRunId, train_id := t.id, name := t.name, railway := t.railway
    country := t.country, power := t.power, trainType := t.trainType
    numberOfCars := t.numberOfCars, powerType := t.powerType, years := t.years
    notes := t.notes, owner := t.owner, location := t.location
    start_time := t.updated_at, stop_time := none }

/-- `app.post("/api/running")` with fallible statement execution.  The server
runs `stmtInsert` then `stmtInsertRun` as two separate auto-commit statements
(no `db.transaction` wrapper): `okTrain` / `okRun` say whether each statement
succeeds; a throwing statement aborts the handler, leaving every previously
executed statement committed. -/
def postRunningF (db : DB) (b : TrainBody) (newId newRunId : String) (now : Int)
    (okTrain okRun : Bool) : DB × Resp :=
  match validateTrain b with
  | some msg => (db, .badRequest msg)
  | none =>
    if !okTrain then (db, .serverError)
    else
      let t := trainOfBody b newId now
      let db1 := stmtInsert db t
      if !okRun then (db1, .serverError)
      else (stmtInsertRun db1 (runOfTrain t newRunId), .created newId)

/-- `app.post("/api/running")` on the non-throwing path. -/
def postRunning (db : DB) (b : TrainBody) (newId newRunId : String) (now : Int) :
    DB × Resp :=
  postRunningF db b newId newRunId now true true

/-- A `PATCH /api/running/:id` body: `none` = key absent from the JSON body.
`numberOfCars`, when present, is already coerced by `Number(...)`
(`some (some n)` an integer, `some none` not an integer).  The `id` and
`active` keys may be present; the handler overwrites `merged.id` with the
path id and `stmtUpdate` never reads `merged.active`, so neither field is
consulted anywhere. -/
structure PatchBody where
  name : Option JVal := none
  railway : Option JVal := none
  country : Option JVal := none
  power : Option JVal := none
  trainType : Option JVal := none
  numberOfCars : Option (Option Int) := none
  powerType : Option JVal := none
  years : Option JVal := none
  notes : Option JVal := none
  owner : Option JVal := none
  location : Option JVal := none
  id : Option String := none
  active : Option Bool := none
deriving DecidableEq, Repr

/-- One field of `merged = { ...existing, ...req.body }`: the body's value
when the key is present, else the existing row's string. -/
def mergeField (e : String) : Option JVal → JVal
  | some v => v
  | none => .str e

/-- The merged record `PATCH` validates: existing row overridden by the
present body fields (with `numberOfCars` re-coerced when supplied). -/
def mergedBody (t : Train) (p : PatchBody) : TrainBody :=
  { name := mergeField t.name p.name, railway := mergeField t.railway p.railway
    country := mergeField t.country p.country, power := mergeField t.power p.power
    trainType := mergeField t.trainType p.trainType
    numberOfCars := match p.numberOfCars with
      | some v => v
      | none => some t.numberOfCars
    powerType := mergeField t.powerType p.powerType
    years := mergeField t.years p.years, notes := mergeField t.notes p.notes
    owner := mergeField t.owner p.owner
    location := mergeField t.location p.location }

/-- `app.patch("/api/running/:id")`: look up, merge, re-validate the merged
record, then `stmtUpdate` with `updated_at` = now and the path id as key. -/
def patchRunning (db : DB) (id : String) (p : PatchBody) (now : Int) : DB × Resp :=
  match stmtGetById db id with
  | none => (db, .notFound)
  | some existing =>
    let m := mergedBody existing p
    match validateTrain m with
    | some msg => (db, .badRequest msg)
    | none =>
      (stmtUpdate db
        { id := id, name := strOf m.name, railway := strOf m.railway
          country := strOf m.country, power := strOf m.power
          trainType := strOf m.trainType, numberOfCars := m.numberOfCars.getD 0
          powerType := strOf m.powerType, years := strOf m.years
          notes := strOf m.notes, owner := strOf m.owner
          location := strOf m.location, updated_at := now }, .ok)

/-- The synthesized zero-duration run of the delete route's last fallback
tier: snapshot from the looked-up train, `start_time = stop_time =` the stop
timestamp. -/
def synthRun (t : Train) (tid newRunId : String) (stop_time : Int) : Run :=
  { id := newRunId, train_id := tid, name := t.name, railway := t.railway
    country := t.country, power := t.power, trainType := t.trainType
    numberOfCars := t.numberOfCars, powerType := t.powerType, years := t.years
    notes := t.notes, owner := t.owner, location := t.location
    start_time := stop_time, stop_time := some stop_time }

/-- `app.delete("/api/running/:id")` with fallible statement execution
(`okDeact` for `stmtDeactivate`, `okLedger` for the single ledger write on
whichever tier is taken), as in `postRunningF`. -/
def deleteRunningF (db : DB) (id : String) (newRunId : String) (now : Int)
    (okDeact okLedger : Bool) : DB × Resp :=
  match stmtGetById db id with
  | none => (db, .notFound)
  | some existing =>
    if !okDeact then (db, .serverError)
    else
      let db1 := stmtDeactivate db id now
      if !okLedger then (db1, .serverError)
      else
        match stmtFindOpenRun db1 id with
        | some r => (stmtUpdateRunStop db1 r.id now, .ok)
        | none =>
          match stmtFindLatestRun db1 id with
          | some r => (stmtUpdateRunStop db1 r.id now, .ok)
          | none => (stmtInsertRun db1 (synthRun existing id newRunId now), .ok)

/-- `app.delete("/api/running/:id")` on the non-throwing path. -/
def deleteRunning (db : DB) (id : String) (newRunId : String) (now : Int) :
    DB × Resp :=
  deleteRunningF db id newRunId now true true

/-- SQLite `date(start_time)` on an ISO-8601 UTC instant, as the UTC day
index of the millisecond timestamp. -/
def dateOfMs (t : Int) : Int := t.fdiv 86400000

/-- `stmtRunsByDate`: runs started on the given day, by `start_time` ascending. -/
def stmtRunsByDate (db : DB) (date : Int) : List Run :=
  (db.runs.filter (fun r => dateOfMs r.start_time = date)).mergeSort
    (fun a b => a.start_time ≤ b.start_time)

/-- JS `Math.round(a / b)` for integer `a` and positive integer `b`:
round half toward positive infinity. -/
def roundDiv (a b : Int) : Int := (2 * a + b).fdiv (2 * b)

/-- The `duration` object of a report row. -/
structure Duration where
  minutes : Int
  hours : Int
  remainderMinutes : Int
deriving DecidableEq, Repr

/-- The duration computation of `GET /api/reports/runs` for one row:
`durationMinutes = max(0, round((end - start) / 60000))`,
`hours = floor(durationMinutes / 60)`, `remainderMinutes = durationMinutes % 60`. -/
def durationOf (start e : Int) : Duration :=
  let m := max 0 (roundDiv (e - start) 60000)
  { minutes := m, hours := m.fdiv 60, remainderMinutes := m.emod 60 }

/-- A report row: the run's columns spread into the object plus `duration`. -/
structure ReportRow where
  run : Run
  duration : Duration
deriving DecidableEq, Repr

/-- `GET /api/reports/runs?date=...`: the day's runs with computed durations;
an open run measures against `now`. -/
def reportRuns (db : DB) (date now : Int) : List ReportRow :=
  (stmtRunsByDate db date).map (fun r =>
    { run := r, duration := durationOf r.start_time (r.stop_time.getD now) })

/-- A WebSocket message: `{event: "running:init"|"running:update", payload}`. -/
inductive Msg where
  | init (payload : List PublicTrain)
  | update (payload : List PublicTrain)
deriving DecidableEq, Repr

/-- One connected WebSocket client: `ready` models `readyState === 1`,
`msgs` the messages sent to it, in order. -/
structure Viewer where
  vid : Nat
  ready : Bool
  msgs : List Msg
deriving DecidableEq, Repr

/-- The server state: the database plus the connected clients. -/
structure ServerState where
  db : DB
  viewers : List Viewer
deriving DecidableEq, Repr

/-- `broadcast`: send `running:update` with the payload to every client whose
`readyState` is 1; others are skipped silently. -/
def broadcast (s : ServerState) (payload : List PublicTrain) : ServerState :=
  { s with viewers := s.viewers.map (fun v =>
      if v.ready then { v with msgs := v.msgs ++ [Msg.update payload] } else v) }

/-- The externally visible events the server processes, one at a time
(single-threaded event loop): a WebSocket connection, a readiness change of
a client's socket, and the three mutating routes with their environment
inputs. -/
inductive Event where
  | connect (vid : Nat)
  | setReady (vid : Nat) (r : Bool)
  | post (b : TrainBody) (newId newRunId : String) (now : Int)
  | patch (id : String) (p : PatchBody) (now : Int)
  | delete (id : String) (newRunId : String) (now : Int)
deriving Repr

/-- One step of the server.  `wss.on("connection")` sends `running:init` with
the current `stmtListRunning` result immediately; each mutating route
broadcasts `running:update` with the refreshed list only on its success path. -/
def step (s : ServerState) : Event → ServerState
  | .connect vid =>
    { s with viewers := s.viewers ++
        [{ vid := vid, ready := true, msgs := [Msg.init (stmtListRunning s.db)] }] }
  | .setReady vid r =>
    { s with viewers := s.viewers.map (fun v =>
        if v.vid = vid then { v with ready := r } else v) }
  | .post b newId newRunId now =>
    match (postRunning s.db b newId newRunId now).2 with
    | .created _ =>
      broadcast { s with db := (postRunning s.db b newId newRunId now).1 }
        (stmtListRunning (postRunning s.db b newId newRunId now).1)
    | _ => { s with db := (postRunning s.db b newId newRunId now).1 }
  | .patch id p now =>
    match (patchRunning s.db id p now).2 with
    | .ok =>
      broadcast { s with db := (patchRunning s.db id p now).1 }
        (stmtListRunning (patchRunning s.db id p now).1)
    | _ => { s with db := (patchRunning s.db id p now).1 }
  | .delete id newRunId now =>
    match (deleteRunning s.db id newRunId now).2 with
    | .ok =>
      broadcast { s with db := (deleteRunning s.db id newRunId now).1 }
        (stmtListRunning (deleteRunning s.db id newRunId now).1)
    | _ => { s with db := (deleteRunning s.db id newRunId now).1 }

/-- Process a sequence of events. -/
def run (s : ServerState) : List Event → ServerState
  | [] => s
  | e :: es => run (step s e) es

/-! ### The validator's rule order

The individual domain rules of `validateTrain`, listed as (check, message)
pairs in the order the source checks them, to state which rule's message a
multiply-invalid record receives. -/

/-- The eleven validation rules in the source's check order.  Note the source
checks `numberOfCars` (sixth) before `powerType` (seventh). -/
def ruleChecks (b : TrainBody) : List (Bool × String) :=
  [(reqStr b.name, "name required"),
   (reqStr b.railway, "railway required"),
   (reqStr b.country, "country required (emoji flag)"),
   (enumOk VALID_POWER b.power, "power must be one of: Steam, Diesel, Electric"),
   (enumOk VALID_TYPES b.trainType,
     "trainType must be one of: Passenger, Freight, Special, Mixed"),
   (carsOk b.numberOfCars, "numberOfCars must be an integer between 0 and 100"),
   (enumOk VALID_POWER_TYPES b.powerType, "powerType must be one of: AC, DC, Digital"),
   (reqStr b.years, "years required (e.g. 1950 or 1950â€“1960)"),
   (enumOk VALID_LOCATIONS b.location,
     "location must be one of: Upper loop, Lower loop 1, Lower loop 2"),
   (!strTypeBad b.notes, "notes must be a string"),
   (!strTypeBad b.owner, "owner must be a string")]

/-- The message of the first failing rule, if any. -/
def firstFailure (l : List (Bool × String)) : Option String :=
  (l.find? (fun p => !p.1)).map (·.2)

/-! ### Abbreviations for run lookups -/

/-- The open runs of a train (the candidates of `stmtFindOpenRun`). -/
def openRunsFor (db : DB) (tid : String) : List Run :=
  db.runs.filter (fun r => r.train_id = tid && r.stop_time = none)

/-- All runs of a train (the candidates of `stmtFindLatestRun`). -/
def runsFor (db : DB) (tid : String) : List Run :=
  db.runs.filter (fun r => r.train_id = tid)

/-- The run snapshot columns agree with the train's columns. -/
def snapshotMatches (r : Run) (t : Train) : Prop :=
  r.train_id = t.id ∧ r.name = t.name ∧ r.railway = t.railway ∧
    r.country = t.country ∧ r.power = t.power ∧ r.trainType = t.trainType ∧
    r.numberOfCars = t.numberOfCars ∧ r.powerType = t.powerType ∧
    r.years = t.years ∧ r.notes = t.notes ∧ r.owner = t.owner ∧
    r.location = t.location

instance (r : Run) (t : Train) : Decidable (snapshotMatches r t) := by
  unfold snapshotMatches
  infer_instance

/-- A record's view with the owner column blanked, to state that no public
output depends on owner data. -/
def scrubOwner (t : Train) : Train := { t with owner := "" }

/-! ### Sample data for counterexamples and witnesses -/

/-- A body that passes validation. -/
def bodyValid : TrainBody :=
  { name := .str "Crocodile", railway := .str "SBB", country := .str "CH"
    power := .str "Electric", trainType := .str "Freight"
    numberOfCars := some 4, powerType := .str "AC", years := .str "1950"
    notes := .str "", owner := .str "Gene", location := .str "Upper loop" }

/-- A body whose `powerType` and `numberOfCars` are both invalid while every
earlier rule passes. -/
def bodyTwoBad : TrainBody :=
  { name := .str "A", railway := .str "R", country := .str "F"
    power := .str "Steam", trainType := .str "Passenger"
    numberOfCars := none, powerType := .str "XX", years := .str "1950"
    notes := .str "", owner := .str "", location := .str "Upper loop" }

/-- A sample active train. -/
def trainA : Train :=
  { id := "t1", name := "Crocodile", railway := "SBB", country := "CH"
    power := "Electric", trainType := "Freight", numberOfCars := 4
    powerType := "AC", years := "1950", notes := "", owner := "Gene"
    location := "Upper loop", active := true, updated_at := 1000 }

/-- The open run of `trainA`. -/
def runA : Run :=
  { id := "r1", train_id := "t1", name := "Crocodile", railway := "SBB"
    country := "CH", power := "Electric", trainType := "Freight"
    numberOfCars := 4, powerType := "AC", years := "1950", notes := ""
    owner := "Gene", location := "Upper loop", start_time := 1000
    stop_time := none }

/-- A database holding `trainA` with its open run. -/
def dbA : DB := ⟨[trainA], [runA]⟩

/-! ### Helper lemmas -/

theorem foldl_pick_mem (rs : List Run) (acc : Run) :
    rs.foldl (fun a x => if a.start_time < x.start_time then x else a) acc = acc ∨
      rs.foldl (fun a x => if a.start_time < x.start_time then x else a) acc ∈ rs := by
  induction rs generalizing acc with
  | nil => simp
  | cons y ys ih =>
    simp only [List.foldl_cons]
    rcases ih (if acc.start_time < y.start_time then y else acc) with h | h
    · rw [h]
      split
      · right; simp
      · left; rfl
    · right; simp [h]

theorem foldl_pick_ge (rs : List Run) (acc : Run) :
    acc.start_time ≤
        (rs.foldl (fun a x => if a.start_time < x.start_time then x else a) acc).start_time ∧
      ∀ x ∈ rs,
        x.start_time ≤
          (rs.foldl (fun a x => if a.start_time < x.start_time then x else a) acc).start_time := by
  induction rs generalizing acc with
  | nil => simp
  | cons y ys ih =>
    simp only [List.foldl_cons]
    obtain ⟨h1, h2⟩ := ih (if acc.start_time < y.start_time then y else acc)
    constructor
    · refine le_trans ?_ h1
      split <;> omega
    · intro x hx
      rcases List.mem_cons.mp hx with rfl | hx
      · refine le_trans ?_ h1
        split <;> omega
      · exact h2 x hx

/-- `ORDER BY start_time DESC LIMIT 1` returns a maximal element of a
non-empty candidate list. -/
theorem pickLatest_spec (l : List Run) (hl : l ≠ []) :
    ∃ r, pickLatest l = some r ∧ r ∈ l ∧ ∀ x ∈ l, x.start_time ≤ r.start_time := by
  match l with
  | [] => exact absurd rfl hl
  | a :: as =>
    refine ⟨_, rfl, ?_, ?_⟩
    · rcases foldl_pick_mem as a with h | h
      · rw [h]; simp
      · simp [h]
    · intro x hx
      obtain ⟨h1, h2⟩ := foldl_pick_ge as a
      rcases List.mem_cons.mp hx with rfl | hx
      · exact h1
      · exact h2 x hx

theorem rosterLE_trans (a b c : PublicTrain) :
    rosterLE a b = true → rosterLE b c = true → rosterLE a c = true := by
  intro hab hbc
  simp only [rosterLE] at *
  by_cases h1 : a.location = b.location <;> by_cases h2 : b.location = c.location
  · rw [if_pos h1] at hab
    rw [if_pos h2] at hbc
    rw [if_pos (h1.trans h2)]
    simp at *
    omega
  · rw [if_pos h1] at hab
    rw [if_neg h2] at hbc
    rw [if_neg (h1 ▸ h2)]
    exact h1 ▸ hbc
  · rw [if_neg h1] at hab
    rw [if_pos h2] at hbc
    rw [if_neg (fun e => h1 (e.trans h2.symm))]
    exact h2 ▸ hab
  · rw [if_neg h1] at hab
    rw [if_neg h2] at hbc
    simp only [decide_eq_true_eq] at hab hbc
    have hac : a.location < c.location := hab.trans hbc
    rw [if_neg (ne_of_lt hac)]
    simpa using hac

theorem rosterLE_total (a b : PublicTrain) :
    (rosterLE a b || rosterLE b a) = true := by
  simp only [rosterLE]
  by_cases h : a.location = b.location
  · simp [h]; omega
  · have h2 : b.location ≠ a.location := fun e => h e.symm
    simp only [if_neg h, if_neg h2]
    rcases lt_or_gt_of_ne h with hlt | hgt
    · simp [hlt]
    · simp [hgt]

theorem rosterLE_imp (a b : PublicTrain) (h : rosterLE a b = true) :
    a.location < b.location ∨ (a.location = b.location ∧ b.updated_at ≤ a.updated_at) := by
  simp only [rosterLE] at h
  split_ifs at h with h1
  · right; exact ⟨h1, by simpa using h⟩
  · left; simpa using h

/-! ### Claim theorems -/

/-- C3, counterexample: `bodyTwoBad` has both `powerType` and `numberOfCars`
invalid (every earlier rule passing), yet `validateTrain` returns the
`numberOfCars` message, not the `powerType` message the claim requires: the
source checks `numberOfCars` before `powerType`, while the claim (after the
spec's rule list) puts `powerType` first. -/
theorem C3_order_counterexample :
    carsOk bodyTwoBad.numberOfCars = false ∧
      enumOk VALID_POWER_TYPES bodyTwoBad.powerType = false ∧
      validateTrain bodyTwoBad = some "numberOfCars must be an integer between 0 and 100" ∧
      validateTrain bodyTwoBad ≠ some "powerType must be one of: AC, DC, Digital" := by
  decide

/-- C3, amended: the validator returns the message of the first violated rule
in the order the source checks them — name, railway, country, power,
trainType, `numberOfCars`, `powerType`, years, location, notes, owner — and
in particular a record where both `powerType` and `numberOfCars` are invalid
(all earlier rules passing) receives the `numberOfCars` message. -/
theorem C3_validator_first_rule_order :
    (∀ b : TrainBody, validateTrain b = firstFailure (ruleChecks b)) ∧
      (∀ b : TrainBody, reqStr b.name = true → reqStr b.railway = true →
        reqStr b.country = true → enumOk VALID_POWER b.power = true →
        enumOk VALID_TYPES b.trainType = true → carsOk b.numberOfCars = false →
        enumOk VALID_POWER_TYPES b.powerType = false →
        validateTrain b = some "numberOfCars must be an integer between 0 and 100") := by
  constructor
  · intro b
    simp only [validateTrain, firstFailure, ruleChecks]
    cases h1 : reqStr b.name
    case false => simp [List.find?_cons, h1]
    case true => ?_
    cases h2 : reqStr b.railway
    case false => simp [List.find?_cons, h1, h2]
    case true => ?_
    cases h3 : reqStr b.country
    case false => simp [List.find?_cons, h1, h2, h3]
    case true => ?_
    cases h4 : enumOk VALID_POWER b.power
    case false => simp [List.find?_cons, h1, h2, h3, h4]
    case true => ?_
    cases h5 : enumOk VALID_TYPES b.trainType
    case false => simp [List.find?_cons, h1, h2, h3, h4, h5]
    case true => ?_
    cases h6 : carsOk b.numberOfCars
    case false => simp [List.find?_cons, h1, h2, h3, h4, h5, h6]
    case true => ?_
    cases h7 : enumOk VALID_POWER_TYPES b.powerType
    case false => simp [List.find?_cons, h1, h2, h3, h4, h5, h6, h7]
    case true => ?_
    cases h8 : reqStr b.years
    case false => simp [List.find?_cons, h1, h2, h3, h4, h5, h6, h7, h8]
    case true => ?_
    cases h9 : enumOk VALID_LOCATIONS b.location
    case false => simp [List.find?_cons, h1, h2, h3, h4, h5, h6, h7, h8, h9]
    case true => ?_
    cases h10 : strTypeBad b.notes
    case true => simp [List.find?_cons, h1, h2, h3, h4, h5, h6, h7, h8, h9, h10]
    case false => ?_
    cases h11 : strTypeBad b.owner
    case true => simp [List.find?_cons, h1, h2, h3, h4, h5, h6, h7, h8, h9, h10, h11]
    case false => simp [List.find?_cons, h1, h2, h3, h4, h5, h6, h7, h8, h9, h10, h11]
  · intro b hn hr hc hp ht hcars hpt
    simp [validateTrain, hn, hr, hc, hp, ht, hcars, hpt]

/-- C3, witness: the amended order theorem applied to the doubly invalid
concrete record. -/
theorem C3_validator_first_rule_order_witness :
    validateTrain bodyTwoBad = some "numberOfCars must be an integer between 0 and 100" :=
  C3_validator_first_rule_order.2 bodyTwoBad (by decide) (by decide) (by decide)
    (by decide) (by decide) (by decide) (by decide)

/-- C2: the two writes of a mutation are separate auto-commit statements with
no wrapping transaction, so they can commit separately.  Concretely: a valid
start command whose `train_runs` INSERT throws leaves the new train row
committed with no run row, and a stop command whose ledger write throws
leaves the train deactivated while its run stays open — the mutation is not
all-or-nothing, contradicting the claim. -/
theorem C2_not_all_or_nothing :
    ((postRunningF ⟨[], []⟩ bodyValid "t1" "r1" 0 true false).1.trains =
        [trainOfBody bodyValid "t1" 0] ∧
      (postRunningF ⟨[], []⟩ bodyValid "t1" "r1" 0 true false).1.runs = [] ∧
      (postRunningF ⟨[], []⟩ bodyValid "t1" "r1" 0 true false).2 = Resp.serverError) ∧
      ((deleteRunningF dbA "t1" "r2" 5000 true false).1.trains =
          [{ trainA with active := false, updated_at := 5000 }] ∧
        (deleteRunningF dbA "t1" "r2" 5000 true false).1.runs = [runA] ∧
        (deleteRunningF dbA "t1" "r2" 5000 true false).2 = Resp.serverError) := by
  decide

/-- C4: a valid start command appends exactly one active train (with the
generated id and `updated_at` = now) and exactly one open run whose snapshot
columns equal the new train's columns and whose `start_time` equals the
train's `updated_at`; an invalid start command leaves the database untouched
and reports the validation message. -/
theorem C4_start_creates (db : DB) (b : TrainBody) (newId newRunId : String) (now : Int)
    (hFresh : newId ∉ db.trains.map Train.id) :
    (validateTrain b = none →
      (postRunning db b newId newRunId now).1.trains = db.trains ++ [trainOfBody b newId now] ∧
      (postRunning db b newId newRunId now).1.runs =
        db.runs ++ [runOfTrain (trainOfBody b newId now) newRunId] ∧
      (trainOfBody b newId now).active = true ∧
      (trainOfBody b newId now).id = newId ∧
      (trainOfBody b newId now).id ∉ db.trains.map Train.id ∧
      (trainOfBody b newId now).updated_at = now ∧
      (runOfTrain (trainOfBody b newId now) newRunId).stop_time = none ∧
      snapshotMatches (runOfTrain (trainOfBody b newId now) newRunId) (trainOfBody b newId now) ∧
      (runOfTrain (trainOfBody b newId now) newRunId).start_time =
        (trainOfBody b newId now).updated_at ∧
      (postRunning db b newId newRunId now).2 = Resp.created newId) ∧
    (∀ msg, validateTrain b = some msg →
      postRunning db b newId newRunId now = (db, Resp.badRequest msg)) := by
  constructor
  · intro hv
    unfold postRunning postRunningF
    rw [hv]
    exact ⟨rfl, rfl, rfl, rfl, hFresh, rfl, rfl,
      ⟨rfl, rfl, rfl, rfl, rfl, rfl, rfl, rfl, rfl, rfl, rfl, rfl⟩, rfl, rfl⟩
  · intro msg hv
    unfold postRunning postRunningF
    rw [hv]

/-- C4, witness: starting `bodyValid` on the empty database creates the one
train and its one open run. -/
theorem C4_start_creates_witness :
    (postRunning ⟨[], []⟩ bodyValid "t9" "r9" 7).1.trains = [trainOfBody bodyValid "t9" 7] ∧
      (postRunning ⟨[], []⟩ bodyValid "t9" "r9" 7).1.runs =
        [runOfTrain (trainOfBody bodyValid "t9" 7) "r9"] := by
  have h := (C4_start_creates ⟨[], []⟩ bodyValid "t9" "r9" 7 (by decide)).1 (by decide)
  exact ⟨h.1, h.2.1⟩

/-- C10: a partial update on an existing train whose merged record passes
validation rewrites only the descriptive columns and `updated_at`: the `id`
column and the `active` flag of every row are exactly what they were, for an
arbitrary patch body — including one supplying `id` or `active` keys, which
no statement reads. -/
theorem C10_patch_keeps_id_active (db : DB) (id : String) (p : PatchBody) (now : Int)
    (ex : Train) (hex : stmtGetById db id = some ex)
    (hv : validateTrain (mergedBody ex p) = none) :
    (patchRunning db id p now).1.trains.map Train.id = db.trains.map Train.id ∧
      (patchRunning db id p now).1.trains.map Train.active = db.trains.map Train.active ∧
      (patchRunning db id p now).2 = Resp.ok := by
  simp only [patchRunning, hex, hv, stmtUpdate, List.map_map]
  refine ⟨List.map_congr_left fun t ht => ?_, List.map_congr_left fun t ht => ?_, trivial⟩
  · simp only [Function.comp_apply]
    split <;> rfl
  · simp only [Function.comp_apply]
    split <;> rfl

/-- A patch body that tries to smuggle `id` and `active` changes alongside a
legitimate name change. -/
def patchSmuggle : PatchBody :=
  { name := some (.str "Re 6/6"), id := some "zzz", active := some false }

/-- C10, witness: patching `trainA` with a body carrying `id` and `active`
keys leaves the stored id and active flag unchanged. -/
theorem C10_patch_keeps_id_active_witness :
    (patchRunning dbA "t1" patchSmuggle 2000).1.trains.map Train.id = ["t1"] ∧
      (patchRunning dbA "t1" patchSmuggle 2000).1.trains.map Train.active = [true] := by
  have h := C10_patch_keeps_id_active dbA "t1" patchSmuggle 2000 trainA (by decide) (by decide)
  exact ⟨h.1, h.2.1⟩

/-- C5: stopping a train with exactly one open run sets that run's
`stop_time` to the stop timestamp, and every other run — of this train or of
any other — is carried over unchanged in all fields. -/
theorem C5_stop_frame (db : DB) (id newRunId : String) (now : Int) (ex : Train) (r : Run)
    (hex : stmtGetById db id = some ex)
    (hopen : openRunsFor db id = [r])
    (hnd : (db.runs.map Run.id).Nodup) :
    ((deleteRunning db id newRunId now).1).runs =
        db.runs.map (fun x => if x.id = r.id then { x with stop_time := some now } else x) ∧
      { r with stop_time := some now } ∈ ((deleteRunning db id newRunId now).1).runs ∧
      (∀ x ∈ db.runs, x ≠ r → x ∈ ((deleteRunning db id newRunId now).1).runs) := by
  have hr : r ∈ db.runs := by
    have hm : r ∈ openRunsFor db id := by
      rw [hopen]
      simp
    exact (List.mem_filter.mp hm).1
  have hfind : stmtFindOpenRun (stmtDeactivate db id now) id = some r := by
    have he : stmtFindOpenRun (stmtDeactivate db id now) id = pickLatest (openRunsFor db id) := rfl
    rw [he, hopen]
    rfl
  have hruns : ((deleteRunning db id newRunId now).1).runs =
      db.runs.map (fun x => if x.id = r.id then { x with stop_time := some now } else x) := by
    simp only [deleteRunning, deleteRunningF, hex, hfind]
    rfl
  refine ⟨hruns, ?_, ?_⟩
  · rw [hruns]
    have h2 := List.mem_map_of_mem
      (fun x => if x.id = r.id then { x with stop_time := some now } else x) hr
    simpa using h2
  · intro x hx hne
    have hid : x.id ≠ r.id := fun e => hne (List.inj_on_of_nodup_map hnd hx hr e)
    rw [hruns]
    have h2 := List.mem_map_of_mem
      (fun x => if x.id = r.id then { x with stop_time := some now } else x) hx
    simpa [hid] using h2

/-- C5, witness: stopping `trainA`, whose only open run is `runA`, closes
exactly that run. -/
theorem C5_stop_frame_witness :
    ((deleteRunning dbA "t1" "r9" 5000).1).runs = [{ runA with stop_time := some 5000 }] := by
  have h := C5_stop_frame dbA "t1" "r9" 5000 trainA runA (by decide) (by decide) (by decide)
  rw [h.1]
  decide

/-- C1: for a stop command on an existing train id, the ledger update follows
the three-tier fallback of the delete route: (1) with open runs present, a
most recently started open run has its `stop_time` set to the stop timestamp;
(2) with runs but none open, a most recently started run overall has its
`stop_time` overwritten; (3) with no run at all, a zero-duration run
(`start_time = stop_time =` the stop timestamp) is inserted for the train.
In every case the ledger afterwards holds a run of the train with
`stop_time` = the stop timestamp. -/
theorem C1_stop_three_tier (db : DB) (id newRunId : String) (now : Int) (ex : Train)
    (hex : stmtGetById db id = some ex) :
    (openRunsFor db id ≠ [] →
      ∃ r ∈ openRunsFor db id, (∀ x ∈ openRunsFor db id, x.start_time ≤ r.start_time) ∧
        ((deleteRunning db id newRunId now).1).runs =
          db.runs.map (fun x => if x.id = r.id then { x with stop_time := some now } else x)) ∧
      (openRunsFor db id = [] → runsFor db id ≠ [] →
        ∃ r ∈ runsFor db id, (∀ x ∈ runsFor db id, x.start_time ≤ r.start_time) ∧
          ((deleteRunning db id newRunId now).1).runs =
            db.runs.map (fun x => if x.id = r.id then { x with stop_time := some now } else x)) ∧
      (runsFor db id = [] →
        ((deleteRunning db id newRunId now).1).runs = db.runs ++ [synthRun ex id newRunId now] ∧
        (synthRun ex id newRunId now).train_id = id ∧
        (synthRun ex id newRunId now).start_time = now ∧
        (synthRun ex id newRunId now).stop_time = some now) ∧
      (∃ x ∈ ((deleteRunning db id newRunId now).1).runs,
        x.train_id = id ∧ x.stop_time = some now) := by
  have hOpen : stmtFindOpenRun (stmtDeactivate db id now) id = pickLatest (openRunsFor db id) := rfl
  have hLatest : stmtFindLatestRun (stmtDeactivate db id now) id = pickLatest (runsFor db id) := rfl
  have tier1 : openRunsFor db id ≠ [] →
      ∃ r ∈ openRunsFor db id, (∀ x ∈ openRunsFor db id, x.start_time ≤ r.start_time) ∧
        ((deleteRunning db id newRunId now).1).runs =
          db.runs.map (fun x => if x.id = r.id then { x with stop_time := some now } else x) := by
    intro hne
    obtain ⟨r, hfind, hmem, hmax⟩ := pickLatest_spec _ hne
    have hf : stmtFindOpenRun (stmtDeactivate db id now) id = some r := hOpen.trans hfind
    refine ⟨r, hmem, hmax, ?_⟩
    simp only [deleteRunning, deleteRunningF, hex, hf]
    rfl
  have tier2 : openRunsFor db id = [] → runsFor db id ≠ [] →
      ∃ r ∈ runsFor db id, (∀ x ∈ runsFor db id, x.start_time ≤ r.start_time) ∧
        ((deleteRunning db id newRunId now).1).runs =
          db.runs.map (fun x => if x.id = r.id then { x with stop_time := some now } else x) := by
    intro hopen hall
    have hfO : stmtFindOpenRun (stmtDeactivate db id now) id = none := by
      rw [hOpen, hopen]
      rfl
    obtain ⟨r, hfind, hmem, hmax⟩ := pickLatest_spec _ hall
    have hfL : stmtFindLatestRun (stmtDeactivate db id now) id = some r := hLatest.trans hfind
    refine ⟨r, hmem, hmax, ?_⟩
    simp only [deleteRunning, deleteRunningF, hex, hfO, hfL]
    rfl
  have hOpenSub : runsFor db id = [] → openRunsFor db id = [] := by
    intro hall
    simp only [openRunsFor, runsFor] at hall ⊢
    rw [List.filter_eq_nil_iff] at hall ⊢
    intro a ha
    have h2 := hall a ha
    simp only [Bool.and_eq_true, decide_eq_true_eq] at h2 ⊢
    tauto
  have tier3 : runsFor db id = [] →
      ((deleteRunning db id newRunId now).1).runs = db.runs ++ [synthRun ex id newRunId now] ∧
      (synthRun ex id newRunId now).train_id = id ∧
      (synthRun ex id newRunId now).start_time = now ∧
      (synthRun ex id newRunId now).stop_time = some now := by
    intro hall
    have hfO : stmtFindOpenRun (stmtDeactivate db id now) id = none := by
      rw [hOpen, hOpenSub hall]
      rfl
    have hfL : stmtFindLatestRun (stmtDeactivate db id now) id = none := by
      rw [hLatest, hall]
      rfl
    refine ⟨?_, rfl, rfl, rfl⟩
    simp only [deleteRunning, deleteRunningF, hex, hfO, hfL]
    rfl
  refine ⟨tier1, tier2, tier3, ?_⟩
  by_cases hall : runsFor db id = []
  · obtain ⟨heq, ht, hs, hst⟩ := tier3 hall
    refine ⟨synthRun ex id newRunId now, ?_, ht, hst⟩
    rw [heq]
    simp
  · by_cases hopen : openRunsFor db id = []
    · obtain ⟨r, hmem, _, heq⟩ := tier2 hopen hall
      obtain ⟨hrdb, hrid⟩ := List.mem_filter.mp hmem
      refine ⟨{ r with stop_time := some now }, ?_, ?_, rfl⟩
      · rw [heq]
        have h2 := List.mem_map_of_mem
          (fun x => if x.id = r.id then { x with stop_time := some now } else x) hrdb
        simpa using h2
      · simpa using hrid
    · obtain ⟨r, hmem, _, heq⟩ := tier1 hopen
      obtain ⟨hrdb, hrid⟩ := List.mem_filter.mp hmem
      refine ⟨{ r with stop_time := some now }, ?_, ?_, rfl⟩
      · rw [heq]
        have h2 := List.mem_map_of_mem
          (fun x => if x.id = r.id then { x with stop_time := some now } else x) hrdb
        simpa using h2
      · simp only [Bool.and_eq_true, decide_eq_true_eq] at hrid
        exact hrid.1

/-- C1, witness: stopping `trainA` (whose one run is open) leaves a closed
run of `t1` in the ledger. -/
theorem C1_stop_three_tier_witness :
    ∃ x ∈ ((deleteRunning dbA "t1" "r9" 5000).1).runs,
      x.train_id = "t1" ∧ x.stop_time = some 5000 :=
  (C1_stop_three_tier dbA "t1" "r9" 5000 trainA (by decide)).2.2.2

/-- C6: the report for a date holds exactly the runs started that calendar
day, ordered by `start_time` ascending; each row's duration satisfies
`minutes = max 0 (round((end - start)/minute))` with `end` the stop time when
present and `now` otherwise, `hours = floor(minutes/60)` and
`remainderMinutes = minutes % 60`; a 95-minute run reports
`{minutes := 95, hours := 1, remainderMinutes := 35}`. -/
theorem C6_report_durations (db : DB) (date now : Int) :
    ((reportRuns db date now).map ReportRow.run).Perm
        (db.runs.filter (fun r => dateOfMs r.start_time = date)) ∧
      List.Pairwise (fun a b : ReportRow => a.run.start_time ≤ b.run.start_time)
        (reportRuns db date now) ∧
      (∀ row ∈ reportRuns db date now,
        row.duration.minutes =
            max 0 (roundDiv (row.run.stop_time.getD now - row.run.start_time) 60000) ∧
          row.duration.hours = row.duration.minutes.fdiv 60 ∧
          row.duration.remainderMinutes = row.duration.minutes.emod 60) ∧
      (∀ start : Int, durationOf start (start + 95 * 60000) =
        { minutes := 95, hours := 1, remainderMinutes := 35 }) := by
  have hmap : (reportRuns db date now).map ReportRow.run = stmtRunsByDate db date := by
    unfold reportRuns
    rw [List.map_map]
    exact List.map_id _
  refine ⟨?_, ?_, ?_, ?_⟩
  · rw [hmap]
    exact List.mergeSort_perm _ _
  · unfold reportRuns stmtRunsByDate
    rw [List.pairwise_map]
    have hs := @List.sorted_mergeSort Run (fun a b => a.start_time ≤ b.start_time)
      (fun a b c h1 h2 => by
        simp only [decide_eq_true_eq] at h1 h2 ⊢
        omega)
      (fun a b => by
        simp only [Bool.or_eq_true, decide_eq_true_eq]
        omega)
      (db.runs.filter (fun r => dateOfMs r.start_time = date))
    exact hs.imp (fun h => by simpa using h)
  · intro row hrow
    unfold reportRuns at hrow
    obtain ⟨r, hr, rfl⟩ := List.mem_map.mp hrow
    exact ⟨rfl, rfl, rfl⟩
  · intro start
    have h : start + 95 * 60000 - start = (5700000 : Int) := by ring
    simp only [durationOf, roundDiv, h]
    decide

/-- C6, witness: the report of `dbA` on day 0, queried at `now = 1000`,
instantiates the duration equations. -/
theorem C6_report_durations_witness :
    ∀ row ∈ reportRuns dbA 0 1000,
      row.duration.minutes =
          max 0 (roundDiv (row.run.stop_time.getD 1000 - row.run.start_time) 60000) ∧
        row.duration.hours = row.duration.minutes.fdiv 60 ∧
        row.duration.remainderMinutes = row.duration.minutes.emod 60 :=
  (C6_report_durations dbA 0 1000).2.2.1

/-- C7: `stmtListRunning` returns exactly the projections of the active
rows — never an inactive one — pairwise ordered by location ascending and,
within a location, by `updated_at` descending. -/
theorem C7_list_active (db : DB) :
    (stmtListRunning db).Perm ((db.trains.filter (fun t => t.active)).map publicOf) ∧
      (∀ p ∈ stmtListRunning db, ∃ t ∈ db.trains, t.active = true ∧ publicOf t = p) ∧
      List.Pairwise (fun a b : PublicTrain =>
          a.location < b.location ∨ (a.location = b.location ∧ b.updated_at ≤ a.updated_at))
        (stmtListRunning db) := by
  have hperm : (stmtListRunning db).Perm ((db.trains.filter (fun t => t.active)).map publicOf) :=
    List.mergeSort_perm _ _
  refine ⟨hperm, ?_, ?_⟩
  · intro p hp
    have hp2 := hperm.mem_iff.mp hp
    obtain ⟨t, ht, rfl⟩ := List.mem_map.mp hp2
    obtain ⟨htdb, hact⟩ := List.mem_filter.mp ht
    exact ⟨t, htdb, hact, rfl⟩
  · have hs := @List.sorted_mergeSort PublicTrain rosterLE rosterLE_trans rosterLE_total
      ((db.trains.filter (fun t => t.active)).map publicOf)
    exact hs.imp (fun h => rosterLE_imp _ _ h)

/-- C7, witness: the ordering facts at the sample database. -/
theorem C7_list_active_witness :
    ∀ p ∈ stmtListRunning dbA, ∃ t ∈ dbA.trains, t.active = true ∧ publicOf t = p :=
  (C7_list_active dbA).2.1

/-- C8: the owner column never reaches a public output.  Two registries equal
up to owner data produce identical `stmtListRunning` results and identical
`running:init` / `running:update` payloads, and the output of any registry
equals the output computed from its owner-scrubbed copy (the projection of
`stmtListRunning` selects no owner column). -/
theorem C8_owner_not_public (db1 db2 : DB)
    (h : db1.trains.map scrubOwner = db2.trains.map scrubOwner) :
    stmtListRunning db1 = stmtListRunning db2 ∧
      Msg.init (stmtListRunning db1) = Msg.init (stmtListRunning db2) ∧
      Msg.update (stmtListRunning db1) = Msg.update (stmtListRunning db2) ∧
      stmtListRunning db1 = stmtListRunning ⟨db1.trains.map scrubOwner, db1.runs⟩ := by
  have key : ∀ l : List Train,
      ((l.map scrubOwner).filter (fun t => t.active)).map publicOf =
        (l.filter (fun t => t.active)).map publicOf := by
    intro l
    induction l with
    | nil => rfl
    | cons t ts ih =>
      by_cases ht : t.active = true <;>
        simp [List.filter_cons, scrubOwner, publicOf, ht, ih]
  have hL : ∀ dbx : DB, stmtListRunning dbx = stmtListRunning ⟨dbx.trains.map scrubOwner, dbx.runs⟩ := by
    intro dbx
    unfold stmtListRunning
    rw [key]
  have h12 : stmtListRunning db1 = stmtListRunning db2 := by
    rw [hL db1, h, hL db2]
    rfl
  exact ⟨h12, by rw [h12], by rw [h12], hL db1⟩

/-- `trainA` with a different owner, to witness owner-independence. -/
def trainAOwner : Train := { trainA with owner := "Somebody Else" }

/-- C8, witness: changing only `trainA`'s owner leaves the public list
identical. -/
theorem C8_owner_not_public_witness :
    stmtListRunning dbA = stmtListRunning ⟨[trainAOwner], []⟩ :=
  (C8_owner_not_public dbA ⟨[trainAOwner], []⟩ (by decide)).1

/-- A viewer's message history starts with a `running:init` and everything
after it is a `running:update`. -/
def InitFirst (s : ServerState) : Prop :=
  ∀ v ∈ s.viewers, ∃ p rest, v.msgs = Msg.init p :: rest ∧ ∀ m ∈ rest, ∃ q, m = Msg.update q

theorem InitFirst_broadcast (s : ServerState) (payload : List PublicTrain)
    (h : InitFirst s) : InitFirst (broadcast s payload) := by
  intro v hv
  simp only [broadcast, List.mem_map] at hv
  obtain ⟨w, hw, rfl⟩ := hv
  obtain ⟨p, rest, hm, hrest⟩ := h w hw
  by_cases hr : w.ready
  · simp only [if_pos hr]
    refine ⟨p, rest ++ [Msg.update payload], by simp [hm], ?_⟩
    intro m hm2
    rcases List.mem_append.mp hm2 with h2 | h2
    · exact hrest m h2
    · simp only [List.mem_singleton] at h2
      exact ⟨payload, h2⟩
  · simp only [if_neg hr]
    exact ⟨p, rest, hm, hrest⟩

theorem InitFirst_step (s : ServerState) (e : Event) (h : InitFirst s) :
    InitFirst (step s e) := by
  cases e with
  | connect vid =>
    intro v hv
    simp only [step, List.mem_append, List.mem_singleton] at hv
    rcases hv with hv | rfl
    · exact h v hv
    · exact ⟨stmtListRunning s.db, [], rfl, by simp⟩
  | setReady vid r =>
    intro v hv
    simp only [step, List.mem_map] at hv
    obtain ⟨w, hw, rfl⟩ := hv
    obtain ⟨p, rest, hm, hrest⟩ := h w hw
    refine ⟨p, rest, ?_, hrest⟩
    split <;> simp [hm]
  | post b newId newRunId now =>
    cases hres : (postRunning s.db b newId newRunId now).2 <;>
      simp only [step, hres] <;>
      first
        | exact InitFirst_broadcast _ _ h
        | exact fun v hv => h v hv
  | patch id p now =>
    cases hres : (patchRunning s.db id p now).2 <;>
      simp only [step, hres] <;>
      first
        | exact InitFirst_broadcast _ _ h
        | exact fun v hv => h v hv
  | delete id newRunId now =>
    cases hres : (deleteRunning s.db id newRunId now).2 <;>
      simp only [step, hres] <;>
      first
        | exact InitFirst_broadcast _ _ h
        | exact fun v hv => h v hv

theorem InitFirst_run (tr : List Event) (s : ServerState) (h : InitFirst s) :
    InitFirst (run s tr) := by
  induction tr generalizing s with
  | nil => exact h
  | cons e es ih => exact ih (step s e) (InitFirst_step s e h)

/-- C9: a connecting viewer is handed, synchronously, a single
`running:init` message carrying the `stmtListRunning` result of the database
at the moment of connection; and along any event sequence every viewer's
message stream is that init followed only by `running:update` messages. -/
theorem C9_init_before_update (s : ServerState) (vid : Nat) (tr : List Event)
    (h : InitFirst s) :
    (step s (.connect vid)).viewers =
        s.viewers ++ [{ vid := vid, ready := true, msgs := [Msg.init (stmtListRunning s.db)] }] ∧
      InitFirst (run s tr) :=
  ⟨rfl, InitFirst_run tr s h⟩

/-- C9, witness: a fresh server that accepts one connection and one stop
command keeps the init-before-update shape. -/
theorem C9_init_before_update_witness :
    InitFirst (run ⟨dbA, []⟩ [Event.connect 0, Event.delete "t1" "r9" 5000]) :=
  (C9_init_before_update ⟨dbA, []⟩ 0 [Event.connect 0, Event.delete "t1" "r9" 5000]
    (fun v hv => absurd hv (List.not_mem_nil v))).2

end WhatIsRunning
